import Mathlib

/-!
Shallow embedding of the storage-quota-and-file-lifecycle engine of the
Encrypted-files-backend repository (services/file_service.py,
services/user_service.py, utils/validators.py, config/settings.py,
config/storage.py), together with theorems settling the frozen claims
about it.

Modelling conventions:
- Python ints are `Int` (sizes, quotas) or `Nat` (timestamps, page numbers).
- The Supabase backend is a record `DBState`: the `users` table (assoc list
  keyed by user id), the `files` table (a list of rows), and the object
  store (a list of stored paths).
- Timestamps (`datetime.utcnow()`) are abstracted as a `Nat` tick passed in
  by the caller (`now`).
- Fallible backend calls that the service code wraps in try/except get an
  explicit success flag (`putOk`, `insertOk`, `quotaQueryOk`): `true` means
  the backend call succeeds, `false` means it raises.
- Raised exceptions become `Except Err` results; each `Err` constructor
  corresponds to one distinct error message raised by the source.
- Each lifecycle operation additionally returns a trace of the backend
  steps it executed, in execution order, so ordering/compensation claims
  can be stated.
-/

namespace EncFiles

abbrev UserId := String
abbrev FileId := String

/-- Row of the `users` table (models/user.py UserDB restricted to the fields
the quota engine reads). -/
structure UserRec where
  storage_used : Int
  storage_limit : Int
  is_active : Bool
deriving DecidableEq, Repr

/-- Row of the `files` table (models/file.py FileDB). `encrypted_metadata`
is an opaque blob the server never parses, kept as a `String`. -/
structure FileRec where
  id : FileId
  user_id : UserId
  encrypted_filename : String
  encrypted_metadata : String
  file_size : Int
  storage_path : String
  uploaded_at : Nat
  last_accessed : Option Nat
  is_deleted : Bool
  deleted_at : Option Nat
  encryption_algorithm : String
deriving DecidableEq, Repr

/-- The backend state: users table, files table, object store contents. -/
structure DBState where
  users : List (UserId × UserRec)
  files : List FileRec
  objects : List String
deriving DecidableEq, Repr

/-- Model of `table("users").select(...).eq("id", user_id)`: the first row
whose key matches. -/
def lookupUser (st : DBState) (uid : UserId) : Option UserRec :=
  (st.users.find? (fun p => p.1 == uid)).map Prod.snd

/-- Model of `table("users").update({...}).eq("id", user_id)`: rewrite every
row whose key matches. -/
def setUser (st : DBState) (uid : UserId) (u : UserRec) : DBState :=
  { st with users := st.users.map (fun p => if p.1 == uid then (uid, u) else p) }

/-- One constructor per distinct error the source raises on these paths. -/
inductive Err where
  /-- ValueError "File size exceeds maximum allowed size of {..}MB" -/
  | invalidFileSize
  /-- ValueError "Storage quota exceeded" -/
  | quotaExceeded
  /-- SecurityValidator: "File data is empty" -/
  | emptyFile
  /-- SecurityValidator: "File size exceeds maximum allowed size of {..} bytes" -/
  | contentTooLarge
  /-- Exception "File upload failed": the outer except of upload_file, reached
  when the object put raises, the catalog insert raises, the insert returns no
  row ("Failed to save file metadata"), or the reservation raises a
  non-ValueError -/
  | uploadFailed
  /-- Exception "Failed to update storage usage": a backend query inside
  update_storage_used raised -/
  | updateStorageFailed
  /-- ValueError "User not found" -/
  | userNotFound
  /-- ValueError "File not found" -/
  | fileNotFound
  /-- ValueError "Invalid file ID format" -/
  | invalidFileId
  /-- ValidationUtils.validate_pagination_params failed -/
  | invalidPagination
  /-- ValidationUtils.validate_sort_params failed -/
  | invalidSort
deriving DecidableEq, Repr

/-- config/settings.py: `max_file_size_mb` default. -/
def max_file_size_mb : Int := 50

/-- config/settings.py: `max_file_size_bytes = max_file_size_mb * 1024 * 1024`. -/
def max_file_size_bytes : Int := max_file_size_mb * 1024 * 1024

/-- utils/validators.py ValidationUtils.validate_file_size:
`isinstance(size, int) and 0 < size <= max_size`. -/
def validate_file_size (size max_size : Int) : Bool :=
  0 < size && size ≤ max_size

/-- utils/validators.py SecurityValidator.validate_file_upload: rejects
empty content, then content longer than `max_size`. Content is modelled by
its byte length. -/
def validate_file_upload (file_len : Nat) (max_size : Int) : Except Err Unit :=
  if file_len == 0 then .error .emptyFile
  else if (file_len : Int) > max_size then .error .contentTooLarge
  else .ok ()

/-- utils/validators.py ValidationUtils.validate_pagination_params:
`page >= 1` and `1 <= limit <= 100`. -/
def validate_pagination_params (page limit : Nat) : Bool :=
  1 ≤ page && (1 ≤ limit && limit ≤ 100)

/-- Model of Python str.lower(): lower-case every character. -/
def strLower (s : String) : String :=
  ⟨s.data.map Char.toLower⟩

/-- utils/validators.py ValidationUtils.validate_sort_params. -/
def validate_sort_params (sort_by ord : String) : Bool :=
  (sort_by == "uploaded_at" || sort_by == "file_size" || sort_by == "encrypted_filename")
    && (strLower ord == "asc" || strLower ord == "desc")

def isLowerHexDigit (c : Char) : Bool :=
  ('0' ≤ c && c ≤ '9') || ('a' ≤ c && c ≤ 'f')

/-- utils/validators.py ValidationUtils.validate_uuid: the lowered string
must match `[0-9a-f]{8}-[0-9a-f]{4}-[0-9a-f]{4}-[0-9a-f]{4}-[0-9a-f]{12}`. -/
def validate_uuid (s : String) : Bool :=
  let cs := s.data.map Char.toLower
  cs.length == 36 &&
  (List.range 36).all (fun i =>
    if i == 8 || i == 13 || i == 18 || i == 23 then cs.getD i ' ' == '-'
    else isLowerHexDigit (cs.getD i ' '))

/-- services/user_service.py UserService.check_storage_quota. Returns
`false` when the user row is missing or the query raises (`quotaQueryOk =
false`); otherwise `storage_used + file_size <= storage_limit`. -/
def check_storage_quota (st : DBState) (uid : UserId) (file_size : Int)
    (quotaQueryOk : Bool) : Bool :=
  if !quotaQueryOk then false
  else
    match lookupUser st uid with
    | none => false
    | some u => u.storage_used + file_size ≤ u.storage_limit

/-- services/user_service.py UserService.update_storage_used: reads the
user row (raising "User not found" when absent), computes
`new_used = max(0, current_used + size_delta)`, raises "Storage quota
exceeded" when `size_delta > 0` and `new_used > storage_limit`, otherwise
persists `new_used`. The `updOk` flag models the call's two backend
queries (the select and the update) raising: when false the call raises
"Failed to update storage usage" (the except branch at
user_service.py:130-132) and nothing is persisted — the same outcome
whichever of the two queries raised. -/
def update_storage_used (st : DBState) (uid : UserId) (size_delta : Int)
    (updOk : Bool) : Except Err DBState :=
  if !updOk then .error .updateStorageFailed
  else
    match lookupUser st uid with
    | none => .error .userNotFound
    | some u =>
      let new_used := max 0 (u.storage_used + size_delta)
      if size_delta > 0 && new_used > u.storage_limit then .error .quotaExceeded
      else .ok (setUser st uid { u with storage_used := new_used })

/-- config/storage.py StorageService.upload_file (successful call): the
object appears in the store under its path. -/
def storagePut (st : DBState) (path : String) : DBState :=
  { st with objects := path :: st.objects }

/-- config/storage.py StorageService.delete_file (successful call): every
copy of the path is removed; deleting an absent object is not an error. -/
def storageDelete (st : DBState) (path : String) : DBState :=
  { st with objects := st.objects.filter (fun p => p ≠ path) }

/-- Backend steps of the lifecycle operations, recorded in execution order.
A step is recorded when its backend call is issued (even if it then fails). -/
inductive Ev where
  | checkSize
  | checkQuota
  | putObject (path : String)
  | insertRow (fid : FileId)
  | reserveQuota (delta : Int)
  | releaseQuota (delta : Int)
  | deleteObject (path : String)
  | dbDeleteRow (fid : FileId)
  | dbSoftDelete (fid : FileId)
deriving DecidableEq, Repr

deriving instance DecidableEq for Except

/-- Outcome of a mutating lifecycle operation: the Python return value or
raised error, the backend state it leaves behind, and the trace of backend
steps it executed. -/
structure OpOut where
  result : Except Err FileId
  state : DBState
  trace : List Ev
deriving DecidableEq, Repr

/-- services/file_service.py FileService.upload_file. Steps in source
order: file-size validation, quota pre-check, content validation,
object-store put, catalog insert, quota reservation. `file_id` stands for
the generated uuid4, `now` for `datetime.utcnow()`, `content_len` for the
length of the uploaded bytes. Failure flags, one per fallible backend
call:
- `putOk`: the object-store put; when it raises, the outer except reports
  "File upload failed" and nothing was stored.
- `insertOk`: `insert(...).execute()` completing without raising; a raise
  (backend error, or a key conflict — also forced here by a duplicate id)
  jumps to the outer except at file_service.py:96, so NO cleanup runs and
  the stored object is left orphaned.
- `insertData`: the completed insert returning a row. When it returns no
  row (`if not db_result.data`, file_service.py:71), the code attempts the
  compensating object delete and raises "Failed to save file metadata",
  surfaced by the outer except as "File upload failed".
- `compOk`: that best-effort compensating delete; its own failure is
  swallowed (`except: pass`, lines 75-76), leaving the object behind.
- `reserveOk`: the backend queries of the quota reservation
  (update_storage_used). A reservation raise after the successful insert
  propagates with no compensation: the row stays in the catalog with no
  quota accounted. ValueErrors from the reservation ("User not found",
  "Storage quota exceeded") are re-raised as-is; its backend failure is
  surfaced as "File upload failed". -/
def upload_file (st : DBState) (uid : UserId)
    (encrypted_filename encrypted_metadata : String)
    (file_size : Int) (content_len : Nat) (file_id : FileId) (now : Nat)
    (quotaQueryOk putOk insertOk insertData compOk reserveOk : Bool) : OpOut :=
  if !validate_file_size file_size max_file_size_bytes then
    { result := .error .invalidFileSize, state := st, trace := [.checkSize] }
  else if !check_storage_quota st uid file_size quotaQueryOk then
    { result := .error .quotaExceeded, state := st, trace := [.checkSize, .checkQuota] }
  else
    match validate_file_upload content_len max_file_size_bytes with
    | .error e => { result := .error e, state := st, trace := [.checkSize, .checkQuota] }
    | .ok _ =>
      let storage_path := uid ++ "/" ++ file_id ++ ".enc"
      if !putOk then
        { result := .error .uploadFailed, state := st,
          trace := [.checkSize, .checkQuota, .putObject storage_path] }
      else
        let st1 := storagePut st storage_path
        if !insertOk || st1.files.any (fun f => f.id == file_id) then
          -- the insert raised: outer except, no cleanup, object orphaned
          { result := .error .uploadFailed, state := st1,
            trace := [.checkSize, .checkQuota, .putObject storage_path,
                      .insertRow file_id] }
        else if !insertData then
          -- insert returned no row: best-effort cleanup, then raise
          let st2 := if compOk then storageDelete st1 storage_path else st1
          { result := .error .uploadFailed, state := st2,
            trace := [.checkSize, .checkQuota, .putObject storage_path,
                      .insertRow file_id, .deleteObject storage_path] }
        else
          let file_record : FileRec :=
            { id := file_id, user_id := uid,
              encrypted_filename := encrypted_filename,
              encrypted_metadata := encrypted_metadata,
              file_size := file_size, storage_path := storage_path,
              uploaded_at := now, last_accessed := none,
              is_deleted := false, deleted_at := none,
              encryption_algorithm := "AES-256-GCM" }
          let st2 := { st1 with files := st1.files ++ [file_record] }
          match update_storage_used st2 uid file_size reserveOk with
          | .error e =>
            { result := .error (match e with
                | .updateStorageFailed => Err.uploadFailed
                | e => e),
              state := st2,
              trace := [.checkSize, .checkQuota, .putObject storage_path,
                        .insertRow file_id, .reserveQuota file_size] }
          | .ok st3 =>
            { result := .ok file_id, state := st3,
              trace := [.checkSize, .checkQuota, .putObject storage_path,
                        .insertRow file_id, .reserveQuota file_size] }

/-- Lexicographic order on the characters of two strings; models the text
ordering the database applies to the `encrypted_filename` column. -/
def charListLe : List Char → List Char → Bool
  | [], _ => true
  | _ :: _, [] => false
  | a :: as, b :: bs => if a < b then true else if b < a then false else charListLe as bs

/-- Ascending comparison for one sort column of the files table. -/
def sortKeyLe (sort_by : String) (a b : FileRec) : Bool :=
  if sort_by == "file_size" then a.file_size ≤ b.file_size
  else if sort_by == "encrypted_filename" then
    charListLe a.encrypted_filename.data b.encrypted_filename.data
  else a.uploaded_at ≤ b.uploaded_at

/-- Comparison used by `query.order(sort_by, desc=...)`: descending when
`order.lower() == "desc"`, ascending otherwise. -/
def orderLe (sort_by ord : String) (a b : FileRec) : Bool :=
  if strLower ord == "desc" then sortKeyLe sort_by b a else sortKeyLe sort_by a b

/-- models/file.py FilePagination. -/
structure FilePaginationM where
  total : Nat
  page : Nat
  limit : Nat
  total_pages : Nat
deriving DecidableEq, Repr

/-- models/file.py FileListResult (items kept as full rows). -/
structure FileListResultM where
  files : List FileRec
  pagination : FilePaginationM
deriving DecidableEq, Repr

/-- Row filter used by both the count query and the page query of
list_user_files: `.eq("user_id", user_id).eq("is_deleted", False)`. -/
def liveOwnedBy (uid : UserId) (f : FileRec) : Bool :=
  f.user_id == uid && !f.is_deleted

/-- services/file_service.py FileService.list_user_files: validates
pagination and sort parameters, computes `offset = (page - 1) * limit`,
filters to the user's non-deleted rows, sorts, counts the total with an
independent query over the same filter, returns the rows in
`range(offset, offset + limit - 1)` (inclusive, hence `limit` rows) and
`total_pages = (total + limit - 1) // limit`. -/
def list_user_files (st : DBState) (uid : UserId) (page limit : Nat)
    (sort_by ord : String) : Except Err FileListResultM :=
  if !validate_pagination_params page limit then .error .invalidPagination
  else if !validate_sort_params sort_by ord then .error .invalidSort
  else
    let offset := (page - 1) * limit
    let sorted := (st.files.filter (liveOwnedBy uid)).mergeSort (orderLe sort_by ord)
    let total := (st.files.filter (liveOwnedBy uid)).length
    let slice := (sorted.drop offset).take limit
    let total_pages := (total + limit - 1) / limit
    .ok { files := slice,
          pagination := { total := total, page := page, limit := limit,
                          total_pages := total_pages } }

/-- Outcome of a read-only-ish query: the Python return value or raised
error, and the backend state it leaves behind (these queries may refresh
`last_accessed`). -/
structure QueryOut (α : Type) where
  result : Except Err α
  state : DBState
deriving DecidableEq, Repr

/-- Model of `table("files").update({"last_accessed": now}).eq("id", file_id)`:
stamps every row with that id (the update carries no user filter). -/
def stampLastAccessed (st : DBState) (fid : FileId) (now : Nat) : DBState :=
  { st with files := st.files.map (fun g =>
      if g.id == fid then { g with last_accessed := some now } else g) }

/-- services/file_service.py FileService.get_file_metadata: validates the
id, selects `.eq("id", fid).eq("user_id", uid).eq("is_deleted", False)`,
returns `none` when no row matches, otherwise stamps `last_accessed` and
returns the row. -/
def get_file_metadata (st : DBState) (uid : UserId) (fid : FileId) (now : Nat) :
    QueryOut (Option FileRec) :=
  if !validate_uuid fid then { result := .error .invalidFileId, state := st }
  else
    match st.files.find? (fun f => f.id == fid && f.user_id == uid && !f.is_deleted) with
    | none => { result := .ok none, state := st }
    | some f =>
      { result := .ok (some { f with last_accessed := some now }),
        state := stampLastAccessed st fid now }

/-- Deterministic model of StorageService.create_signed_url. -/
def signedUrl (path : String) : String := "signed:" ++ path

/-- services/file_service.py FileService.download_file: same lookup as
get_file_metadata, then a signed URL for the row's storage_path with a
fixed 300-second expiry, then the `last_accessed` stamp. -/
def download_file (st : DBState) (uid : UserId) (fid : FileId) (now : Nat) :
    QueryOut (Option (String × Nat)) :=
  if !validate_uuid fid then { result := .error .invalidFileId, state := st }
  else
    match st.files.find? (fun f => f.id == fid && f.user_id == uid && !f.is_deleted) with
    | none => { result := .ok none, state := st }
    | some f =>
      { result := .ok (some (signedUrl f.storage_path, 300)),
        state := stampLastAccessed st fid now }

/-- services/file_service.py FileService.delete_file: validates the id,
selects `.eq("id", fid).eq("user_id", uid)` (no is_deleted filter), raises
"File not found" when no row matches. When `permanent` is set or the row is
already soft-deleted: best-effort object delete, then
`table("files").delete().eq("id", fid)`, then a quota release of the row's
file_size. Otherwise: soft delete, i.e. `update({"is_deleted": True,
"deleted_at": now}).eq("id", fid)` only. -/
def delete_file (st : DBState) (uid : UserId) (fid : FileId)
    (permanent : Bool) (now : Nat) : OpOut :=
  if !validate_uuid fid then
    { result := .error .invalidFileId, state := st, trace := [] }
  else
    match st.files.find? (fun f => f.id == fid && f.user_id == uid) with
    | none => { result := .error .fileNotFound, state := st, trace := [] }
    | some f =>
      if permanent || f.is_deleted then
        let st1 := storageDelete st f.storage_path
        let st2 := { st1 with files := st1.files.filter (fun g => !(g.id == fid)) }
        match update_storage_used st2 uid (-f.file_size) true with
        | .error e =>
          { result := .error e, state := st2,
            trace := [.deleteObject f.storage_path, .dbDeleteRow fid,
                      .releaseQuota f.file_size] }
        | .ok st3 =>
          { result := .ok fid, state := st3,
            trace := [.deleteObject f.storage_path, .dbDeleteRow fid,
                      .releaseQuota f.file_size] }
      else
        let st1 := { st with files := st.files.map (fun g =>
          if g.id == fid then { g with is_deleted := true, deleted_at := some now } else g) }
        { result := .ok fid, state := st1, trace := [.dbSoftDelete fid] }

/-- One user-initiated lifecycle operation, for reasoning about sequences
of operations against one account. -/
inductive Op where
  | upload (file_id : FileId) (encrypted_filename encrypted_metadata : String)
      (file_size : Int) (content_len : Nat) (now : Nat)
      (quotaQueryOk putOk insertOk : Bool)
  | delete (file_id : FileId) (permanent : Bool) (now : Nat)
deriving DecidableEq, Repr

/-- The state an operation leaves behind (whether it succeeded or raised).
The insert is taken to return its row and the reservation backend write to
succeed when reached (the sequence claim concerns completed operations;
early rejections and raising puts/inserts are still covered by the flags
carried in `Op`). -/
def applyOp (uid : UserId) (st : DBState) (op : Op) : DBState :=
  match op with
  | .upload fid fn fm sz cl now q p i =>
    (upload_file st uid fn fm sz cl fid now q p i true true true).state
  | .delete fid perm now => (delete_file st uid fid perm now).state

/-- Run a sequence of operations issued by one user. -/
def runOps (uid : UserId) (st : DBState) (ops : List Op) : DBState :=
  ops.foldl (applyOp uid) st

/-- A fresh account: `storage_used = 0`, a configured limit, and an empty
system (no file rows, no stored objects). -/
def freshState (uid : UserId) (limit : Int) : DBState :=
  { users := [(uid, { storage_used := 0, storage_limit := limit, is_active := true })],
    files := [], objects := [] }

/-- Sum of `file_size` over a list of file rows. -/
def sumSizes (files : List FileRec) : Int :=
  (files.map (fun f => f.file_size)).sum

/-! ### Helper lemmas -/

theorem find?_map_set (l : List (UserId × UserRec)) (uid : UserId) (v : UserRec)
    (h : (l.find? (fun p => p.1 == uid)).isSome) :
    (l.map (fun p => if p.1 == uid then (uid, v) else p)).find? (fun p => p.1 == uid)
      = some (uid, v) := by
  induction l with
  | nil => simp [List.find?] at h
  | cons a l ih =>
    by_cases ha : a.1 = uid
    · simp [List.find?, ha]
    · have ha' : (a.1 == uid) = false := by simp [ha]
      simp only [List.map_cons, ha', if_false, List.find?_cons, Bool.false_eq_true] at h ⊢
      exact ih h

theorem lookupUser_setUser (st : DBState) (uid : UserId) (u v : UserRec)
    (h : lookupUser st uid = some u) :
    lookupUser (setUser st uid v) uid = some v := by
  unfold lookupUser setUser at *
  have hsome : (st.users.find? (fun p => p.1 == uid)).isSome := by
    cases hf : st.users.find? (fun p => p.1 == uid) with
    | none => rw [hf] at h; simp at h
    | some p => simp
  simp only [find?_map_set st.users uid v hsome, Option.map_some']

/-! ### Shared concrete example data for witnesses -/

def exUid : String := "123e4567-e89b-12d3-a456-426614174000"

def exUid2 : String := "123e4567-e89b-12d3-a456-426614174111"

def exUidMissing : String := "99999999-9999-4999-a999-999999999999"

def exFid : String := "00000000-0000-4000-a000-00000000000a"

def exFidMissing : String := "00000000-0000-4000-a000-00000000000b"

def exFile : FileRec :=
  { id := exFid, user_id := exUid, encrypted_filename := "fn",
    encrypted_metadata := "md", file_size := 600,
    storage_path := exUid ++ "/" ++ exFid ++ ".enc", uploaded_at := 1,
    last_accessed := none, is_deleted := false, deleted_at := none,
    encryption_algorithm := "AES-256-GCM" }

def exState : DBState :=
  { users := [(exUid, { storage_used := 600, storage_limit := 1000, is_active := true }),
              (exUid2, { storage_used := 0, storage_limit := 1000, is_active := true })],
    files := [exFile],
    objects := [exFile.storage_path] }

/-! ### Claims -/

/-- C8: for every existing user and every non-negative release amount
`d`, a quota release (update_storage_used with delta `-d`) succeeds and
persists `max 0 (storage_used - d)` as the new usage, so the persisted
usage is never negative, no matter how large the released amount is. -/
theorem C8_release_clamps_at_zero (st : DBState) (uid : UserId) (u : UserRec) (d : Int)
    (hu : lookupUser st uid = some u) (hd : 0 ≤ d) :
    update_storage_used st uid (-d) true
      = .ok (setUser st uid { u with storage_used := max 0 (u.storage_used - d) }) ∧
    lookupUser (setUser st uid { u with storage_used := max 0 (u.storage_used - d) }) uid
      = some { u with storage_used := max 0 (u.storage_used - d) } ∧
    (0 : Int) ≤ max 0 (u.storage_used - d) := by
  refine ⟨?_, lookupUser_setUser st uid u _ hu, le_max_left _ _⟩
  unfold update_storage_used
  simp only [Bool.not_true, Bool.false_eq_true, if_false]
  rw [hu]
  have hneg : ¬ (-d > 0) := by omega
  simp only [hneg, decide_False, Bool.false_and, Bool.false_eq_true, if_false,
    Int.sub_eq_add_neg]

/-- C8 witness: a concrete over-release (999 bytes out of 600 used) lands
on usage 0, not a negative number. -/
theorem C8_release_clamps_at_zero_witness :
    update_storage_used exState exUid (-999) true
      = .ok (setUser exState exUid
          { storage_used := max 0 (600 - 999), storage_limit := 1000, is_active := true }) ∧
    lookupUser (setUser exState exUid
          { storage_used := max 0 (600 - 999), storage_limit := 1000, is_active := true }) exUid
      = some { storage_used := max 0 (600 - 999), storage_limit := 1000, is_active := true } ∧
    (0 : Int) ≤ max 0 (600 - 999) :=
  C8_release_clamps_at_zero exState exUid
    { storage_used := 600, storage_limit := 1000, is_active := true } 999
    (by decide) (by decide)

/-- C9: the quota pre-check returns `false` (it does not raise and does
not report a user-not-found error) whenever the user row is missing or
the backing query fails, and consequently an upload attempted for a
nonexistent user whose declared size passes size validation is rejected
with the quota-exceeded error, leaving the state unchanged. -/
theorem C9_missing_user_quota_check_false (st : DBState) (uid : UserId)
    (fn md : String) (sz : Int) (clen : Nat) (fid : FileId) (now : Nat)
    (qOk putOk insertOk insertData compOk reserveOk : Bool)
    (h : lookupUser st uid = none ∨ qOk = false) :
    check_storage_quota st uid sz qOk = false ∧
    (0 < sz → sz ≤ max_file_size_bytes →
      (upload_file st uid fn md sz clen fid now qOk putOk insertOk
          insertData compOk reserveOk).result
          = .error .quotaExceeded ∧
      (upload_file st uid fn md sz clen fid now qOk putOk insertOk
          insertData compOk reserveOk).state = st) := by
  have hchk : check_storage_quota st uid sz qOk = false := by
    unfold check_storage_quota
    rcases h with h | h
    · rw [h]; cases qOk <;> simp
    · rw [h]; simp
  refine ⟨hchk, fun h1 h2 => ?_⟩
  have hsz : validate_file_size sz max_file_size_bytes = true := by
    unfold validate_file_size
    simp [h1, h2]
  unfold upload_file
  rw [hsz, hchk]
  simp

/-- C9 witness: the concrete user id `exUidMissing` has no row; its quota
check is `false` and a well-sized upload for it fails with the
quota-exceeded error. -/
theorem C9_missing_user_quota_check_false_witness :
    check_storage_quota exState exUidMissing 5 true = false ∧
    (0 < (5 : Int) → (5 : Int) ≤ max_file_size_bytes →
      (upload_file exState exUidMissing "fn" "md" 5 5 exFidMissing 7
          true true true true true true).result
          = .error .quotaExceeded ∧
      (upload_file exState exUidMissing "fn" "md" 5 5 exFidMissing 7
          true true true true true true).state
          = exState) :=
  C9_missing_user_quota_check_false exState exUidMissing "fn" "md" 5 5 exFidMissing 7
    true true true true true true (Or.inl (by decide))

theorem find?_eq_of_unique {α : Type} (p : α → Bool) (l : List α) (f : α)
    (hmem : f ∈ l) (hpf : p f = true)
    (huniq : ∀ g ∈ l, p g = true → g = f) :
    l.find? p = some f := by
  induction l with
  | nil => simp at hmem
  | cons a l ih =>
    rcases List.mem_cons.mp hmem with rfl | hmem'
    · simp [List.find?_cons, hpf]
    · by_cases hpa : p a = true
      · have haf : a = f := huniq a (List.mem_cons_self a l) hpa
        subst haf
        simp [List.find?_cons, hpa]
      · simp only [Bool.not_eq_true] at hpa
        simp only [List.find?_cons, hpa, Bool.false_eq_true, if_false]
        exact ih hmem' (fun g hg hpg => huniq g (List.mem_cons_of_mem _ hg) hpg)

/-- C5: a soft delete (delete without the permanent flag on a live, owned
file) succeeds and changes only that record's `is_deleted` and
`deleted_at` fields; the users table (hence `storage_used`), the object
store, and every other file record are untouched, and the only backend
step executed is the catalog soft-delete update. -/
theorem C5_soft_delete_frame (st : DBState) (uid : UserId) (fid : FileId)
    (now : Nat) (f : FileRec)
    (hvalid : validate_uuid fid = true)
    (hfind : st.files.find? (fun g => g.id == fid && g.user_id == uid) = some f)
    (hlive : f.is_deleted = false) :
    (delete_file st uid fid false now).result = .ok fid ∧
    (delete_file st uid fid false now).state.users = st.users ∧
    (delete_file st uid fid false now).state.objects = st.objects ∧
    (delete_file st uid fid false now).state.files
      = st.files.map (fun g =>
          if g.id == fid then { g with is_deleted := true, deleted_at := some now }
          else g) ∧
    (delete_file st uid fid false now).trace = [Ev.dbSoftDelete fid] := by
  unfold delete_file
  rw [hvalid, hfind]
  simp [hlive]

/-- C5 witness: soft-deleting the concrete live file `exFid` of `exUid`. -/
theorem C5_soft_delete_frame_witness :
    (delete_file exState exUid exFid false 9).result = .ok exFid ∧
    (delete_file exState exUid exFid false 9).state.users = exState.users ∧
    (delete_file exState exUid exFid false 9).state.objects = exState.objects ∧
    (delete_file exState exUid exFid false 9).state.files
      = exState.files.map (fun g =>
          if g.id == exFid then { g with is_deleted := true, deleted_at := some 9 }
          else g) ∧
    (delete_file exState exUid exFid false 9).trace = [Ev.dbSoftDelete exFid] :=
  C5_soft_delete_frame exState exUid exFid 9 exFile (by decide) (by decide) (by decide)

/-- Remove every catalog row carrying a given file id: turns "the id is
owned by someone else" into "the id does not exist" for comparison. -/
def eraseId (st : DBState) (fid : FileId) : DBState :=
  { st with files := st.files.filter (fun f => !(f.id == fid)) }

/-- C7: for a well-formed file id every row of which belongs to a user
other than the requester, get-metadata, download and delete produce
exactly the same result (value, error, state change, trace) as they do on
the state with that id absent altogether, so ownership by another user is
indistinguishable from nonexistence: metadata and download return the
empty result, delete raises file-not-found, and no state is modified. -/
theorem C7_cross_user_indistinguishable (st : DBState) (uid : UserId) (fid : FileId)
    (now : Nat) (perm : Bool)
    (hvalid : validate_uuid fid = true)
    (hforeign : ∀ f ∈ st.files, f.id = fid → ¬ f.user_id = uid) :
    (get_file_metadata st uid fid now).result
        = (get_file_metadata (eraseId st fid) uid fid now).result ∧
    (get_file_metadata st uid fid now).result = .ok none ∧
    (get_file_metadata st uid fid now).state = st ∧
    (get_file_metadata (eraseId st fid) uid fid now).state = eraseId st fid ∧
    (download_file st uid fid now).result
        = (download_file (eraseId st fid) uid fid now).result ∧
    (download_file st uid fid now).result = .ok none ∧
    (download_file st uid fid now).state = st ∧
    (download_file (eraseId st fid) uid fid now).state = eraseId st fid ∧
    (delete_file st uid fid perm now).result
        = (delete_file (eraseId st fid) uid fid perm now).result ∧
    (delete_file st uid fid perm now).result = .error .fileNotFound ∧
    (delete_file st uid fid perm now).state = st ∧
    (delete_file (eraseId st fid) uid fid perm now).state = eraseId st fid ∧
    (delete_file st uid fid perm now).trace
        = (delete_file (eraseId st fid) uid fid perm now).trace := by
  have hmeta : st.files.find? (fun f => f.id == fid && f.user_id == uid && !f.is_deleted)
      = none := by
    rw [List.find?_eq_none]
    intro f hf
    by_cases hid : f.id = fid
    · have := hforeign f hf hid
      simp [this]
    · simp [hid]
  have hdel : st.files.find? (fun f => f.id == fid && f.user_id == uid) = none := by
    rw [List.find?_eq_none]
    intro f hf
    by_cases hid : f.id = fid
    · have := hforeign f hf hid
      simp [this]
    · simp [hid]
  have hmeta' : (eraseId st fid).files.find?
      (fun f => f.id == fid && f.user_id == uid && !f.is_deleted) = none := by
    rw [List.find?_eq_none]
    intro f hf
    have := (List.mem_filter.mp hf).2
    simp only [Bool.not_eq_true', beq_eq_false_iff_ne, ne_eq] at this
    simp [this]
  have hdel' : (eraseId st fid).files.find?
      (fun f => f.id == fid && f.user_id == uid) = none := by
    rw [List.find?_eq_none]
    intro f hf
    have := (List.mem_filter.mp hf).2
    simp only [Bool.not_eq_true', beq_eq_false_iff_ne, ne_eq] at this
    simp [this]
  unfold get_file_metadata download_file delete_file
  rw [hvalid, hmeta, hdel, hmeta', hdel']
  simp

/-- C7 witness: user `exUid2` accessing `exFid`, which exists but belongs
to `exUid`, gets exactly the nonexistent-id behaviour. -/
theorem C7_cross_user_indistinguishable_witness :
    (get_file_metadata exState exUid2 exFid 3).result
        = (get_file_metadata (eraseId exState exFid) exUid2 exFid 3).result ∧
    (get_file_metadata exState exUid2 exFid 3).result = .ok none ∧
    (get_file_metadata exState exUid2 exFid 3).state = exState ∧
    (get_file_metadata (eraseId exState exFid) exUid2 exFid 3).state
        = eraseId exState exFid ∧
    (download_file exState exUid2 exFid 3).result
        = (download_file (eraseId exState exFid) exUid2 exFid 3).result ∧
    (download_file exState exUid2 exFid 3).result = .ok none ∧
    (download_file exState exUid2 exFid 3).state = exState ∧
    (download_file (eraseId exState exFid) exUid2 exFid 3).state
        = eraseId exState exFid ∧
    (delete_file exState exUid2 exFid true 3).result
        = (delete_file (eraseId exState exFid) exUid2 exFid true 3).result ∧
    (delete_file exState exUid2 exFid true 3).result = .error .fileNotFound ∧
    (delete_file exState exUid2 exFid true 3).state = exState ∧
    (delete_file (eraseId exState exFid) exUid2 exFid true 3).state
        = eraseId exState exFid ∧
    (delete_file exState exUid2 exFid true 3).trace
        = (delete_file (eraseId exState exFid) exUid2 exFid true 3).trace :=
  C7_cross_user_indistinguishable exState exUid2 exFid 3 true (by decide) (by decide)

theorem update_storage_used_eq_ok (st : DBState) (uid : UserId) (u : UserRec) (d : Int)
    (hu : lookupUser st uid = some u)
    (hcond : ¬ (0 < d ∧ u.storage_limit < max 0 (u.storage_used + d))) :
    update_storage_used st uid d true
      = .ok (setUser st uid { u with storage_used := max 0 (u.storage_used + d) }) := by
  unfold update_storage_used
  simp only [Bool.not_true, Bool.false_eq_true, if_false]
  rw [hu]
  have hc : ¬ ((d > 0 && max 0 (u.storage_used + d) > u.storage_limit) = true) := by
    simp only [Bool.and_eq_true, decide_eq_true_eq]
    rintro ⟨h1, h2⟩
    exact hcond ⟨h1, h2⟩
  dsimp only
  rw [if_neg hc]

/-- C4: soft-deleting a live owned file and then deleting the same id
again — with or without the permanent flag — succeeds both times, releases
exactly `file_size` bytes of quota in total (none at the soft delete, all
of it at the second delete), and the second (hard) delete removes the
catalog row. -/
theorem C4_soft_then_hard_releases_once (st : DBState) (uid : UserId) (fid : FileId)
    (f : FileRec) (u : UserRec) (perm : Bool) (now₁ now₂ : Nat)
    (hvalid : validate_uuid fid = true)
    (hmem : f ∈ st.files) (hid : f.id = fid) (howner : f.user_id = uid)
    (hlive : f.is_deleted = false)
    (huniq : ∀ g ∈ st.files, g.id = fid → g = f)
    (hu : lookupUser st uid = some u)
    (hpos : 0 < f.file_size) (hsz : f.file_size ≤ u.storage_used) :
    (delete_file st uid fid false now₁).result = .ok fid ∧
    lookupUser (delete_file st uid fid false now₁).state uid = some u ∧
    (delete_file (delete_file st uid fid false now₁).state uid fid perm now₂).result
      = .ok fid ∧
    lookupUser
        (delete_file (delete_file st uid fid false now₁).state uid fid perm now₂).state
        uid
      = some { u with storage_used := u.storage_used - f.file_size } ∧
    (∀ g ∈ (delete_file (delete_file st uid fid false now₁).state uid fid perm now₂).state.files,
      ¬ g.id = fid) := by
  have hfind₁ : st.files.find? (fun g => g.id == fid && g.user_id == uid) = some f := by
    apply find?_eq_of_unique _ _ f hmem
    · simp [hid, howner]
    · intro g hg hpg
      simp only [Bool.and_eq_true, beq_iff_eq] at hpg
      exact huniq g hg hpg.1
  have hstep1 : delete_file st uid fid false now₁
      = { result := .ok fid,
          state := { st with files := st.files.map (fun g =>
            if g.id == fid then { g with is_deleted := true, deleted_at := some now₁ }
            else g) },
          trace := [Ev.dbSoftDelete fid] } := by
    unfold delete_file
    rw [hvalid, hfind₁]
    simp [hlive]
  rw [hstep1]
  dsimp only
  have hmem' : ({ f with is_deleted := true, deleted_at := some now₁ } : FileRec)
      ∈ st.files.map (fun g =>
        if g.id == fid then { g with is_deleted := true, deleted_at := some now₁ }
        else g) := by
    have h := List.mem_map_of_mem (fun g : FileRec =>
      if g.id == fid then { g with is_deleted := true, deleted_at := some now₁ }
      else g) hmem
    simpa [hid] using h
  have hfind₂ : (st.files.map (fun g =>
      if g.id == fid then { g with is_deleted := true, deleted_at := some now₁ }
      else g)).find? (fun g => g.id == fid && g.user_id == uid)
      = some { f with is_deleted := true, deleted_at := some now₁ } := by
    apply find?_eq_of_unique _ _ _ hmem'
    · simp [hid, howner]
    · intro g' hg' hpg'
      rcases List.mem_map.mp hg' with ⟨g, hg, rfl⟩
      by_cases hgid : g.id = fid
      · have hgf := huniq g hg hgid
        subst hgf
        simp [hid]
      · simp only [hgid, beq_iff_eq, if_neg (by simpa using hgid), Bool.and_eq_true] at hpg'
        exact absurd hpg'.1 hgid
  unfold delete_file
  rw [hvalid, hfind₂]
  dsimp only
  simp only [Bool.or_true, if_true, Bool.not_true, Bool.false_eq_true, if_false]
  rw [update_storage_used_eq_ok (u := u)]
  · dsimp only
    have hmax : max 0 (u.storage_used + -f.file_size) = u.storage_used - f.file_size := by
      rw [← sub_eq_add_neg]
      exact max_eq_right (by omega)
    rw [hmax]
    refine ⟨by trivial, hu, by trivial, ?_, ?_⟩
    · exact lookupUser_setUser _ uid u _ hu
    · intro g hg
      have hg' := (List.mem_filter.mp hg).2
      simpa using hg'
  · exact hu
  · rintro ⟨h1, h2⟩
    omega

/-- C4 witness: soft delete then (non-permanent) re-delete of `exFid`
releases the 600 bytes exactly once and removes the row. -/
theorem C4_soft_then_hard_releases_once_witness :
    (delete_file exState exUid exFid false 11).result = .ok exFid ∧
    lookupUser (delete_file exState exUid exFid false 11).state exUid
      = some { storage_used := 600, storage_limit := 1000, is_active := true } ∧
    (delete_file (delete_file exState exUid exFid false 11).state exUid exFid false 12).result
      = .ok exFid ∧
    lookupUser
        (delete_file (delete_file exState exUid exFid false 11).state exUid exFid false 12).state
        exUid
      = some { storage_used := 600 - exFile.file_size, storage_limit := 1000,
               is_active := true } ∧
    (∀ g ∈ (delete_file (delete_file exState exUid exFid false 11).state
        exUid exFid false 12).state.files, ¬ g.id = exFid) :=
  C4_soft_then_hard_releases_once exState exUid exFid exFile
    { storage_used := 600, storage_limit := 1000, is_active := true } false 11 12
    (by decide) (by decide) (by decide) (by decide) (by decide)
    (by intro g hg hgid
        have hgf : g = exFile := by simpa [exState] using hg
        exact hgf)
    (by decide) (by decide) (by decide)

theorem update_storage_used_fail (st : DBState) (uid : UserId) (d : Int) :
    update_storage_used st uid d false = .error .updateStorageFailed := rfl

/-- C1 counterexample: for the user `exUid` with `storage_used = 600` and
`storage_limit = 1000`, an upload declaring 52428801 bytes (one byte over
the 50 MB maximum) satisfies `storage_used + file_size > storage_limit`,
yet it fails with the file-size error raised by the earlier size
validation, not with the quota-exceeded error — refuting the claimed
"fails with QuotaExceeded iff over limit" equivalence. -/
theorem C1_counterexample :
    lookupUser exState exUid
      = some { storage_used := 600, storage_limit := 1000, is_active := true } ∧
    (600 : Int) + 52428801 > 1000 ∧
    (upload_file exState exUid "fn" "md" 52428801 5 exFidMissing 0
        true true true true true true).result
      = .error .invalidFileSize ∧
    ¬ (upload_file exState exUid "fn" "md" 52428801 5 exFidMissing 0
        true true true true true true).result
      = .error .quotaExceeded := by
  refine ⟨by decide, by decide, by decide, by decide⟩

/-- C1 (amended): for an existing user with a non-negative storage limit
and an upload whose declared size passes size validation (`0 < size ≤
max_file_size_bytes`), with the quota query succeeding — whatever happens
to the later backend calls (put, insert, insert data, compensation,
reservation) — the upload fails with the quota-exceeded error iff
`storage_used + file_size > storage_limit` at the moment of the check,
and a successful upload leaves `storage_used ≤ storage_limit`. -/
theorem C1_quota_iff_amended (st : DBState) (uid : UserId) (fn md : String)
    (sz : Int) (clen : Nat) (fid : FileId) (now : Nat)
    (putOk insertOk insertData compOk reserveOk : Bool)
    (u : UserRec)
    (hu : lookupUser st uid = some u) (hlim : 0 ≤ u.storage_limit)
    (hsz : validate_file_size sz max_file_size_bytes = true) :
    ((upload_file st uid fn md sz clen fid now true putOk insertOk
        insertData compOk reserveOk).result
        = .error .quotaExceeded ↔ u.storage_limit < u.storage_used + sz) ∧
    (∀ r, (upload_file st uid fn md sz clen fid now true putOk insertOk
        insertData compOk reserveOk).result = .ok r →
      ∃ u', lookupUser (upload_file st uid fn md sz clen fid now true putOk insertOk
          insertData compOk reserveOk).state uid
          = some u' ∧ u'.storage_used ≤ u'.storage_limit ∧
          u'.storage_limit = u.storage_limit) := by
  have hszP : 0 < sz ∧ sz ≤ max_file_size_bytes := by
    simpa [validate_file_size] using hsz
  unfold upload_file
  rw [hsz]
  simp only [Bool.not_true, Bool.false_eq_true, if_false]
  by_cases hq : u.storage_used + sz ≤ u.storage_limit
  · have hchk : check_storage_quota st uid sz true = true := by
      simp [check_storage_quota, hu, hq]
    rw [hchk]
    simp only [Bool.not_true, Bool.false_eq_true, if_false]
    cases hvf : validate_file_upload clen max_file_size_bytes with
    | error e =>
      have he : e = .emptyFile ∨ e = .contentTooLarge := by
        unfold validate_file_upload at hvf
        split at hvf
        · exact Or.inl (by cases hvf; rfl)
        · split at hvf
          · exact Or.inr (by cases hvf; rfl)
          · cases hvf
      dsimp only
      constructor
      · constructor
        · intro habs
          rcases he with rfl | rfl <;> simp at habs
        · intro habs
          exact absurd hq (not_le.mpr habs)
      · intro r hr
        simp at hr
    | ok _ =>
      dsimp only
      cases putOk with
      | false =>
        simp only [Bool.not_false, if_true]
        constructor
        · constructor
          · intro habs; simp at habs
          · intro habs; exact absurd hq (not_le.mpr habs)
        · intro r hr; simp at hr
      | true =>
        simp only [Bool.not_true, Bool.false_eq_true, if_false, storagePut]
        cases hins : (!insertOk || st.files.any (fun f => f.id == fid)) with
        | true =>
          simp only [if_true]
          constructor
          · constructor
            · intro habs; simp at habs
            · intro habs; exact absurd hq (not_le.mpr habs)
          · intro r hr; simp at hr
        | false =>
          simp only [Bool.false_eq_true, if_false]
          cases insertData with
          | false =>
            simp only [Bool.not_false, if_true]
            constructor
            · constructor
              · intro habs; simp at habs
              · intro habs; exact absurd hq (not_le.mpr habs)
            · intro r hr; simp at hr
          | true =>
            simp only [Bool.not_true, Bool.false_eq_true, if_false]
            cases reserveOk with
            | false =>
              rw [update_storage_used_fail]
              dsimp only
              constructor
              · constructor
                · intro habs; simp at habs
                · intro habs; exact absurd hq (not_le.mpr habs)
              · intro r hr; simp at hr
            | true =>
              rw [update_storage_used_eq_ok (u := u)]
              · dsimp only
                constructor
                · constructor
                  · intro habs; simp at habs
                  · intro habs; exact absurd hq (not_le.mpr habs)
                · intro r _
                  refine ⟨_, lookupUser_setUser _ uid u _ hu, ?_, rfl⟩
                  exact max_le hlim hq
              · exact hu
              · rintro ⟨h1, h2⟩
                exact absurd h2 (not_lt.mpr (max_le hlim hq))
  · have hchk : check_storage_quota st uid sz true = false := by
      simp only [check_storage_quota, Bool.not_true, Bool.false_eq_true, if_false]
      rw [hu]
      simpa using hq
    rw [hchk]
    simp only [Bool.not_false, if_true]
    constructor
    · constructor
      · intro _; exact not_le.mp hq
      · intro _; trivial
    · intro r hr
      simp at hr

/-- C1 witness: an in-quota 100-byte upload for `exUid` (600 of 1000 used)
does not raise quota-exceeded and completes with usage 700 ≤ 1000. -/
theorem C1_quota_iff_amended_witness :
    ((upload_file exState exUid "fn" "md" 100 5 exFidMissing 2
        true true true true true true).result
        = .error .quotaExceeded ↔ (1000 : Int) < 600 + 100) ∧
    (∀ r, (upload_file exState exUid "fn" "md" 100 5 exFidMissing 2
        true true true true true true).result
        = .ok r →
      ∃ u', lookupUser
          (upload_file exState exUid "fn" "md" 100 5 exFidMissing 2
            true true true true true true).state
          exUid
        = some u' ∧ u'.storage_used ≤ u'.storage_limit ∧ u'.storage_limit = 1000) :=
  C1_quota_iff_amended exState exUid "fn" "md" 100 5 exFidMissing 2 true true true true true
    { storage_used := 600, storage_limit := 1000, is_active := true }
    (by decide) (by decide) (by decide)

/-- C10 counterexample: an upload with a positive declared size of 5
bytes but empty content, attempted when the quota pre-check fails (here:
the user id has no row), is rejected with the quota-exceeded error — not
with the empty-file or size validation error — because the quota check
runs before the content check. This refutes the claim that every
empty-content upload is rejected with a validation error. -/
theorem C10_counterexample :
    (0 : Int) < 5 ∧
    (upload_file exState exUidMissing "fn" "md" 5 0 exFidMissing 0 true true true true true true).result
      = .error .quotaExceeded ∧
    ¬ (upload_file exState exUidMissing "fn" "md" 5 0 exFidMissing 0 true true true true true true).result
      = .error .emptyFile ∧
    ¬ (upload_file exState exUidMissing "fn" "md" 5 0 exFidMissing 0 true true true true true true).result
      = .error .invalidFileSize := by
  refine ⟨by decide, by decide, by decide, by decide⟩

/-- C10 (amended): an upload whose declared size is not strictly positive,
or whose content is empty, is always rejected before any object-store put,
catalog insert, or quota mutation (the state is unchanged and no such
backend step is executed). A non-positive declared size is rejected with
the file-size validation error; empty content is rejected with the
empty-file validation error provided the size passes validation and the
quota pre-check passes (when the quota pre-check fails, the quota-exceeded
error is reported instead). -/
theorem C10_early_rejection_amended (st : DBState) (uid : UserId) (fn md : String)
    (sz : Int) (clen : Nat) (fid : FileId) (now : Nat)
    (qOk pOk iOk iData cOk rOk : Bool)
    (h : sz ≤ 0 ∨ clen = 0) :
    (upload_file st uid fn md sz clen fid now qOk pOk iOk iData cOk rOk).state = st ∧
    (∀ p, Ev.putObject p ∉ (upload_file st uid fn md sz clen fid now qOk pOk iOk iData cOk rOk).trace) ∧
    (∀ i, Ev.insertRow i ∉ (upload_file st uid fn md sz clen fid now qOk pOk iOk iData cOk rOk).trace) ∧
    (∀ n, Ev.reserveQuota n ∉ (upload_file st uid fn md sz clen fid now qOk pOk iOk iData cOk rOk).trace) ∧
    (∃ e, (upload_file st uid fn md sz clen fid now qOk pOk iOk iData cOk rOk).result = .error e) ∧
    (sz ≤ 0 →
      (upload_file st uid fn md sz clen fid now qOk pOk iOk iData cOk rOk).result
        = .error .invalidFileSize) ∧
    (0 < sz → sz ≤ max_file_size_bytes → clen = 0 →
      check_storage_quota st uid sz qOk = true →
      (upload_file st uid fn md sz clen fid now qOk pOk iOk iData cOk rOk).result
        = .error .emptyFile) := by
  cases hv : validate_file_size sz max_file_size_bytes with
  | false =>
    have hv' : ¬ (0 < sz ∧ sz ≤ max_file_size_bytes) := by
      simpa [validate_file_size] using hv
    unfold upload_file
    rw [hv]
    simp only [Bool.not_false, if_true]
    refine ⟨by trivial, by simp, by simp, by simp, ⟨_, rfl⟩, fun _ => by trivial, ?_⟩
    intro h1 h2 _ _
    exact absurd ⟨h1, h2⟩ hv'
  | true =>
    have hsz : 0 < sz := by
      have := hv
      simp only [validate_file_size, Bool.and_eq_true, decide_eq_true_eq] at this
      exact this.1
    have hcl : clen = 0 := by
      rcases h with h0 | h0
      · omega
      · exact h0
    subst hcl
    unfold upload_file
    rw [hv]
    simp only [Bool.not_true, Bool.false_eq_true, if_false]
    cases hchk : check_storage_quota st uid sz qOk with
    | false =>
      simp only [Bool.not_false, if_true]
      refine ⟨by trivial, by simp, by simp, by simp, ⟨_, rfl⟩,
        fun h0 => absurd hsz (by omega), ?_⟩
      intro _ _ _ hc
      exact absurd hc (by simp [hchk])
    | true =>
      simp only [Bool.not_true, Bool.false_eq_true, if_false]
      have hvf : validate_file_upload 0 max_file_size_bytes = .error .emptyFile := rfl
      rw [hvf]
      refine ⟨by trivial, by simp, by simp, by simp, ⟨_, rfl⟩,
        fun h0 => absurd hsz (by omega), fun _ _ _ _ => by trivial⟩

/-- C10 witness: an upload declaring -3 bytes is rejected with the size
validation error, no backend step runs, and the state is unchanged. -/
theorem C10_early_rejection_amended_witness :
    (upload_file exState exUid "fn" "md" (-3) 4 exFidMissing 0 true true true true true true).state
      = exState ∧
    (∀ p, Ev.putObject p ∉ (upload_file exState exUid "fn" "md" (-3) 4 exFidMissing 0
        true true true true true true).trace) ∧
    (∀ i, Ev.insertRow i ∉ (upload_file exState exUid "fn" "md" (-3) 4 exFidMissing 0
        true true true true true true).trace) ∧
    (∀ n, Ev.reserveQuota n ∉ (upload_file exState exUid "fn" "md" (-3) 4 exFidMissing 0
        true true true true true true).trace) ∧
    (∃ e, (upload_file exState exUid "fn" "md" (-3) 4 exFidMissing 0 true true true true true true).result
      = .error e) ∧
    ((-3 : Int) ≤ 0 →
      (upload_file exState exUid "fn" "md" (-3) 4 exFidMissing 0 true true true true true true).result
        = .error .invalidFileSize) ∧
    ((0 : Int) < -3 → (-3 : Int) ≤ max_file_size_bytes → (4 : Nat) = 0 →
      check_storage_quota exState exUid (-3) true = true →
      (upload_file exState exUid "fn" "md" (-3) 4 exFidMissing 0 true true true true true true).result
        = .error .emptyFile) :=
  C10_early_rejection_amended exState exUid "fn" "md" (-3) 4 exFidMissing 0
    true true true true true true (Or.inl (by decide))

theorem ceil_div_bounds (t l : Nat) (hl : 1 ≤ l) :
    t ≤ ((t + l - 1) / l) * l ∧ ((t + l - 1) / l) * l < t + l := by
  have h1 := Nat.div_add_mod (t + l - 1) l
  have h2 : (t + l - 1) % l < l := Nat.mod_lt _ (by omega)
  rw [mul_comm]
  generalize l * ((t + l - 1) / l) = M at h1 ⊢
  generalize (t + l - 1) % l = B at h1 h2
  omega

/-- C6: for every valid page/limit/sort input, listing succeeds; every
returned row belongs to the requesting user and is not soft-deleted; the
reported total counts exactly the user's non-deleted rows of the whole
catalog, independently of the requested page; the returned page is the
`limit`-sized slice of the sorted filtered rows starting at offset
`(page - 1) * limit`; and `total_pages` is the code's
`(total + limit - 1) / limit`, which is exactly `ceil(total / limit)`
(characterised by `total ≤ total_pages * limit < total + limit`). -/
theorem C6_list_files_pagination (st : DBState) (uid : UserId) (page limit : Nat)
    (sort_by ord : String)
    (hpg : validate_pagination_params page limit = true)
    (hsort : validate_sort_params sort_by ord = true) :
    ∃ r, list_user_files st uid page limit sort_by ord = .ok r ∧
      (∀ f ∈ r.files, f.user_id = uid ∧ f.is_deleted = false) ∧
      r.pagination.total = (st.files.filter (liveOwnedBy uid)).length ∧
      r.files = (((st.files.filter (liveOwnedBy uid)).mergeSort
          (orderLe sort_by ord)).drop ((page - 1) * limit)).take limit ∧
      r.pagination.page = page ∧
      r.pagination.limit = limit ∧
      r.pagination.total_pages = (r.pagination.total + limit - 1) / limit ∧
      r.pagination.total ≤ r.pagination.total_pages * limit ∧
      r.pagination.total_pages * limit < r.pagination.total + limit := by
  have hlim1 : 1 ≤ limit := by
    have h := hpg
    simp only [validate_pagination_params, Bool.and_eq_true, decide_eq_true_eq] at h
    exact h.2.1
  unfold list_user_files
  rw [hpg, hsort]
  simp only [Bool.not_true, Bool.false_eq_true, if_false]
  refine ⟨_, rfl, ?_, rfl, rfl, rfl, rfl, rfl, ?_, ?_⟩
  · intro f hf
    have h1 : f ∈ (st.files.filter (liveOwnedBy uid)).mergeSort (orderLe sort_by ord) :=
      List.mem_of_mem_drop (List.mem_of_mem_take hf)
    have h2 : f ∈ st.files.filter (liveOwnedBy uid) :=
      (List.mergeSort_perm (st.files.filter (liveOwnedBy uid)) (orderLe sort_by ord)).mem_iff.mp h1
    have h3 := (List.mem_filter.mp h2).2
    simp only [liveOwnedBy, Bool.and_eq_true, beq_iff_eq, Bool.not_eq_true'] at h3
    exact h3
  · exact (ceil_div_bounds (st.files.filter (liveOwnedBy uid)).length limit hlim1).1
  · exact (ceil_div_bounds (st.files.filter (liveOwnedBy uid)).length limit hlim1).2

/-- C6 witness: listing the single-file catalog of `exUid` with page 1,
limit 20, sorted descending by upload time. -/
theorem C6_list_files_pagination_witness :
    ∃ r, list_user_files exState exUid 1 20 "uploaded_at" "desc" = .ok r ∧
      (∀ f ∈ r.files, f.user_id = exUid ∧ f.is_deleted = false) ∧
      r.pagination.total = (exState.files.filter (liveOwnedBy exUid)).length ∧
      r.files = (((exState.files.filter (liveOwnedBy exUid)).mergeSort
          (orderLe "uploaded_at" "desc")).drop ((1 - 1) * 20)).take 20 ∧
      r.pagination.page = 1 ∧
      r.pagination.limit = 20 ∧
      r.pagination.total_pages = (r.pagination.total + 20 - 1) / 20 ∧
      r.pagination.total ≤ r.pagination.total_pages * 20 ∧
      r.pagination.total_pages * 20 < r.pagination.total + 20 :=
  C6_list_files_pagination exState exUid 1 20 "uploaded_at" "desc" (by decide) (by decide)

theorem check_quota_true_inv (st : DBState) (uid : UserId) (sz : Int) (qOk : Bool)
    (h : check_storage_quota st uid sz qOk = true) :
    qOk = true ∧ ∃ u, lookupUser st uid = some u ∧ u.storage_used + sz ≤ u.storage_limit := by
  unfold check_storage_quota at h
  cases qOk with
  | false => simp at h
  | true =>
    refine ⟨rfl, ?_⟩
    cases hl : lookupUser st uid with
    | none => rw [hl] at h; simp at h
    | some u =>
      rw [hl] at h
      exact ⟨u, rfl, by simpa using h⟩

/-- C3 counterexample: two concrete failed uploads for `exUid` (600 of
1000 bytes used) refute the claim. First, when the catalog insert raises
after a successful put, control reaches the outer exception handler and
no compensation runs: the upload fails, the stored object remains
orphaned, and the trace ends at the insert with no delete step. Second,
when the quota-reservation backend write fails after a successful catalog
insert, the upload fails with the new row left in the catalog while
`storage_used` is unchanged — a successful catalog row exists without its
quota accounted. -/
theorem C3_counterexample :
    (upload_file exState exUid "fn" "md" 100 5 exFidMissing 2
        true true false true true true).result = .error .uploadFailed ∧
    (exUid ++ "/" ++ exFidMissing ++ ".enc")
        ∈ (upload_file exState exUid "fn" "md" 100 5 exFidMissing 2
            true true false true true true).state.objects ∧
    (upload_file exState exUid "fn" "md" 100 5 exFidMissing 2
        true true false true true true).trace
      = [Ev.checkSize, Ev.checkQuota,
         Ev.putObject (exUid ++ "/" ++ exFidMissing ++ ".enc"),
         Ev.insertRow exFidMissing] ∧
    (upload_file exState exUid "fn" "md" 100 5 exFidMissing 2
        true true true true true false).result = .error .uploadFailed ∧
    (upload_file exState exUid "fn" "md" 100 5 exFidMissing 2
        true true true true true false).state.files
      = exState.files ++
        [{ id := exFidMissing, user_id := exUid, encrypted_filename := "fn",
           encrypted_metadata := "md", file_size := 100,
           storage_path := exUid ++ "/" ++ exFidMissing ++ ".enc",
           uploaded_at := 2, last_accessed := none, is_deleted := false,
           deleted_at := none, encryption_algorithm := "AES-256-GCM" }] ∧
    lookupUser (upload_file exState exUid "fn" "md" 100 5 exFidMissing 2
        true true true true true false).state exUid
      = some { storage_used := 600, storage_limit := 1000, is_active := true } := by
  refine ⟨by decide, by decide, by decide, by decide, by decide, by decide⟩

/-- C3 (amended): every upload executes its backend steps as a
subsequence of the canonical order size-validation → quota-check → put →
insert → reserve, with the compensating delete only ever directly after
the insert. When put and insert both complete but the insert returns no
row, the compensating delete of the orphaned object is attempted, the
catalog and users tables are untouched, and when that best-effort delete
succeeds the object is gone. When the insert raises, no compensation is
attempted (catalog and quota still untouched). A failed upload never
leaves quota consumed, and it leaves the catalog unchanged unless the
reservation write itself fails after a successful insert. A successful
upload performs exactly the five canonical steps and appends exactly the
new row with its quota accounted. The hypothesis is the data-model
invariant that an existing user's storage_limit is non-negative. -/
theorem C3_upload_order_and_compensation_amended (st : DBState) (uid : UserId)
    (fn md : String) (sz : Int) (clen : Nat) (fid : FileId) (now : Nat)
    (qOk pOk iOk iData cOk rOk : Bool)
    (hlim : ∀ u, lookupUser st uid = some u → 0 ≤ u.storage_limit) :
    List.Sublist (upload_file st uid fn md sz clen fid now qOk pOk iOk iData cOk rOk).trace
      [Ev.checkSize, Ev.checkQuota, Ev.putObject (uid ++ "/" ++ fid ++ ".enc"),
       Ev.insertRow fid, Ev.reserveQuota sz,
       Ev.deleteObject (uid ++ "/" ++ fid ++ ".enc")] ∧
    (iOk = true → st.files.any (fun f => f.id == fid) = false → iData = false →
      Ev.insertRow fid ∈ (upload_file st uid fn md sz clen fid now
          qOk pOk iOk iData cOk rOk).trace →
      Ev.deleteObject (uid ++ "/" ++ fid ++ ".enc")
          ∈ (upload_file st uid fn md sz clen fid now qOk pOk iOk iData cOk rOk).trace ∧
      (upload_file st uid fn md sz clen fid now qOk pOk iOk iData cOk rOk).result
          = .error .uploadFailed ∧
      (upload_file st uid fn md sz clen fid now qOk pOk iOk iData cOk rOk).state.files
          = st.files ∧
      (upload_file st uid fn md sz clen fid now qOk pOk iOk iData cOk rOk).state.users
          = st.users ∧
      (cOk = true → (uid ++ "/" ++ fid ++ ".enc")
          ∉ (upload_file st uid fn md sz clen fid now qOk pOk iOk iData cOk rOk).state.objects)) ∧
    (iOk = false →
      Ev.deleteObject (uid ++ "/" ++ fid ++ ".enc")
          ∉ (upload_file st uid fn md sz clen fid now qOk pOk iOk iData cOk rOk).trace ∧
      (upload_file st uid fn md sz clen fid now qOk pOk iOk iData cOk rOk).state.files
          = st.files ∧
      (upload_file st uid fn md sz clen fid now qOk pOk iOk iData cOk rOk).state.users
          = st.users) ∧
    (∀ e, (upload_file st uid fn md sz clen fid now qOk pOk iOk iData cOk rOk).result
        = .error e →
      (upload_file st uid fn md sz clen fid now qOk pOk iOk iData cOk rOk).state.users
        = st.users) ∧
    (∀ e, (upload_file st uid fn md sz clen fid now qOk pOk iOk iData cOk rOk).result
        = .error e → rOk = true →
      (upload_file st uid fn md sz clen fid now qOk pOk iOk iData cOk rOk).state.files
        = st.files) ∧
    (∀ r, (upload_file st uid fn md sz clen fid now qOk pOk iOk iData cOk rOk).result
        = .ok r →
      (upload_file st uid fn md sz clen fid now qOk pOk iOk iData cOk rOk).trace
        = [Ev.checkSize, Ev.checkQuota, Ev.putObject (uid ++ "/" ++ fid ++ ".enc"),
           Ev.insertRow fid, Ev.reserveQuota sz] ∧
      ∃ u frec, lookupUser st uid = some u ∧
        (upload_file st uid fn md sz clen fid now qOk pOk iOk iData cOk rOk).state.files
          = st.files ++ [frec] ∧
        frec.id = fid ∧ frec.user_id = uid ∧ frec.file_size = sz ∧
        lookupUser (upload_file st uid fn md sz clen fid now qOk pOk iOk iData cOk rOk).state
            uid
          = some { u with storage_used := max 0 (u.storage_used + sz) }) := by
  cases hv : validate_file_size sz max_file_size_bytes with
  | false =>
    unfold upload_file
    rw [hv]
    simp only [Bool.not_false, if_true]
    refine ⟨List.sublist_append_left [Ev.checkSize] _, ?_, ?_,
      fun _ _ => by trivial, fun _ _ _ => by trivial, ?_⟩
    · intro _ _ _ hreach; simp at hreach
    · exact fun _ => ⟨by simp, by trivial, by trivial⟩
    · intro r hr; simp at hr
  | true =>
    unfold upload_file
    rw [hv]
    simp only [Bool.not_true, Bool.false_eq_true, if_false]
    cases hchk : check_storage_quota st uid sz qOk with
    | false =>
      simp only [Bool.not_false, if_true]
      refine ⟨List.sublist_append_left [Ev.checkSize, Ev.checkQuota] _, ?_, ?_,
        fun _ _ => by trivial, fun _ _ _ => by trivial, ?_⟩
      · intro _ _ _ hreach; simp at hreach
      · exact fun _ => ⟨by simp, by trivial, by trivial⟩
      · intro r hr; simp at hr
    | true =>
      obtain ⟨hqOk, u, hu, hle⟩ := check_quota_true_inv st uid sz qOk hchk
      have hlim' := hlim u hu
      simp only [Bool.not_true, Bool.false_eq_true, if_false]
      cases hvf : validate_file_upload clen max_file_size_bytes with
      | error e =>
        simp only
        refine ⟨List.sublist_append_left [Ev.checkSize, Ev.checkQuota] _, ?_, ?_,
          fun _ _ => by trivial, fun _ _ _ => by trivial, ?_⟩
        · intro _ _ _ hreach; simp at hreach
        · exact fun _ => ⟨by simp, by trivial, by trivial⟩
        · intro r hr; simp at hr
      | ok _ =>
        simp only
        cases pOk with
        | false =>
          simp only [Bool.not_false, if_true]
          refine ⟨List.sublist_append_left
              [Ev.checkSize, Ev.checkQuota, Ev.putObject (uid ++ "/" ++ fid ++ ".enc")] _,
            ?_, ?_, fun _ _ => by trivial, fun _ _ _ => by trivial, ?_⟩
          · intro _ _ _ hreach; simp at hreach
          · exact fun _ => ⟨by simp, by trivial, by trivial⟩
          · intro r hr; simp at hr
        | true =>
          simp only [Bool.not_true, Bool.false_eq_true, if_false, storagePut]
          cases hins : (!iOk || st.files.any (fun f => f.id == fid)) with
          | true =>
            simp only [if_true]
            refine ⟨List.sublist_append_left
                [Ev.checkSize, Ev.checkQuota, Ev.putObject (uid ++ "/" ++ fid ++ ".enc"),
                 Ev.insertRow fid] _,
              ?_, ?_, fun _ _ => by trivial, fun _ _ _ => by trivial, ?_⟩
            · intro hiOk hdup _ _
              rw [hiOk, hdup] at hins
              simp at hins
            · exact fun _ => ⟨by simp, by trivial, by trivial⟩
            · intro r hr; simp at hr
          | false =>
            have hiOk : iOk = true := by
              cases hio : iOk
              · rw [hio] at hins; simp at hins
              · rfl
            simp only [Bool.false_eq_true, if_false]
            cases iData with
            | false =>
              simp only [Bool.not_false, if_true]
              refine ⟨?_, ?_, ?_, ?_, fun _ _ _ => by cases cOk <;> rfl, ?_⟩
              · exact List.Sublist.cons₂ _ (List.Sublist.cons₂ _ (List.Sublist.cons₂ _
                  (List.Sublist.cons₂ _ (List.Sublist.cons _ (List.Sublist.refl _)))))
              · intro _ _ _ _
                refine ⟨by simp, by trivial, by cases cOk <;> rfl, by cases cOk <;> rfl, ?_⟩
                intro hc
                rw [hc]
                simp [storageDelete, List.mem_filter]
              · intro hio
                rw [hio] at hiOk
                cases hiOk
              · intro e _
                cases cOk <;> rfl
              · intro r hr; simp at hr
            | true =>
              simp only [Bool.not_true, Bool.false_eq_true, if_false]
              cases rOk with
              | false =>
                rw [update_storage_used_fail]
                dsimp only
                refine ⟨List.sublist_append_left
                    [Ev.checkSize, Ev.checkQuota,
                     Ev.putObject (uid ++ "/" ++ fid ++ ".enc"),
                     Ev.insertRow fid, Ev.reserveQuota sz] _,
                  ?_, ?_, fun _ _ => by trivial, ?_, ?_⟩
                · intro _ _ hfalse _
                  cases hfalse
                · intro hio
                  rw [hio] at hiOk
                  cases hiOk
                · intro e _ hfalse
                  cases hfalse
                · intro r hr; simp at hr
              | true =>
                rw [update_storage_used_eq_ok (u := u)]
                · dsimp only
                  refine ⟨List.sublist_append_left
                      [Ev.checkSize, Ev.checkQuota,
                       Ev.putObject (uid ++ "/" ++ fid ++ ".enc"),
                       Ev.insertRow fid, Ev.reserveQuota sz] _,
                    ?_, ?_, ?_, ?_, ?_⟩
                  · intro _ _ hfalse _
                    cases hfalse
                  · intro hio
                    rw [hio] at hiOk
                    cases hiOk
                  · intro e he'; simp at he'
                  · intro e he'; simp at he'
                  · intro r _
                    refine ⟨by trivial, u, _, hu, by trivial, by trivial, by trivial,
                      by trivial, ?_⟩
                    exact lookupUser_setUser _ uid u _ hu
                · exact hu
                · rintro ⟨h1, h2⟩
                  exact absurd h2 (not_lt.mpr (max_le hlim' hle))

/-- C3 witness: a run of the amended theorem on the compensation path —
put and insert complete, the insert returns no row, the best-effort
delete succeeds — for `exUid` with a 100-byte declared size. -/
theorem C3_upload_order_and_compensation_amended_witness :
    List.Sublist (upload_file exState exUid "fn" "md" 100 5 exFidMissing 2
        true true true false true true).trace
      [Ev.checkSize, Ev.checkQuota, Ev.putObject (exUid ++ "/" ++ exFidMissing ++ ".enc"),
       Ev.insertRow exFidMissing, Ev.reserveQuota 100,
       Ev.deleteObject (exUid ++ "/" ++ exFidMissing ++ ".enc")] ∧
    (true = true → exState.files.any (fun f => f.id == exFidMissing) = false →
      false = false →
      Ev.insertRow exFidMissing ∈ (upload_file exState exUid "fn" "md" 100 5 exFidMissing 2
          true true true false true true).trace →
      Ev.deleteObject (exUid ++ "/" ++ exFidMissing ++ ".enc")
          ∈ (upload_file exState exUid "fn" "md" 100 5 exFidMissing 2
              true true true false true true).trace ∧
      (upload_file exState exUid "fn" "md" 100 5 exFidMissing 2
          true true true false true true).result = .error .uploadFailed ∧
      (upload_file exState exUid "fn" "md" 100 5 exFidMissing 2
          true true true false true true).state.files = exState.files ∧
      (upload_file exState exUid "fn" "md" 100 5 exFidMissing 2
          true true true false true true).state.users = exState.users ∧
      (true = true → (exUid ++ "/" ++ exFidMissing ++ ".enc")
          ∉ (upload_file exState exUid "fn" "md" 100 5 exFidMissing 2
              true true true false true true).state.objects)) ∧
    (true = false →
      Ev.deleteObject (exUid ++ "/" ++ exFidMissing ++ ".enc")
          ∉ (upload_file exState exUid "fn" "md" 100 5 exFidMissing 2
              true true true false true true).trace ∧
      (upload_file exState exUid "fn" "md" 100 5 exFidMissing 2
          true true true false true true).state.files = exState.files ∧
      (upload_file exState exUid "fn" "md" 100 5 exFidMissing 2
          true true true false true true).state.users = exState.users) ∧
    (∀ e, (upload_file exState exUid "fn" "md" 100 5 exFidMissing 2
        true true true false true true).result = .error e →
      (upload_file exState exUid "fn" "md" 100 5 exFidMissing 2
          true true true false true true).state.users = exState.users) ∧
    (∀ e, (upload_file exState exUid "fn" "md" 100 5 exFidMissing 2
        true true true false true true).result = .error e → true = true →
      (upload_file exState exUid "fn" "md" 100 5 exFidMissing 2
          true true true false true true).state.files = exState.files) ∧
    (∀ r, (upload_file exState exUid "fn" "md" 100 5 exFidMissing 2
        true true true false true true).result = .ok r →
      (upload_file exState exUid "fn" "md" 100 5 exFidMissing 2
          true true true false true true).trace
        = [Ev.checkSize, Ev.checkQuota,
           Ev.putObject (exUid ++ "/" ++ exFidMissing ++ ".enc"),
           Ev.insertRow exFidMissing, Ev.reserveQuota 100] ∧
      ∃ u frec, lookupUser exState exUid = some u ∧
        (upload_file exState exUid "fn" "md" 100 5 exFidMissing 2
            true true true false true true).state.files
          = exState.files ++ [frec] ∧
        frec.id = exFidMissing ∧ frec.user_id = exUid ∧ frec.file_size = 100 ∧
        lookupUser (upload_file exState exUid "fn" "md" 100 5 exFidMissing 2
            true true true false true true).state exUid
          = some { storage_used := max 0 (u.storage_used + 100),
                   storage_limit := u.storage_limit, is_active := u.is_active }) :=
  C3_upload_order_and_compensation_amended exState exUid "fn" "md" 100 5 exFidMissing 2
    true true true false true true
    (by intro u hu
        rw [show lookupUser exState exUid
            = some { storage_used := 600, storage_limit := 1000, is_active := true }
          from by decide] at hu
        cases hu
        decide)

theorem sumSizes_nil : sumSizes [] = 0 := rfl

theorem sumSizes_cons (a : FileRec) (l : List FileRec) :
    sumSizes (a :: l) = a.file_size + sumSizes l := by
  simp [sumSizes]

theorem sumSizes_append (a b : List FileRec) :
    sumSizes (a ++ b) = sumSizes a + sumSizes b := by
  simp [sumSizes]

theorem sumSizes_nonneg (l : List FileRec) (h : ∀ f ∈ l, 0 < f.file_size) :
    0 ≤ sumSizes l := by
  induction l with
  | nil => simp [sumSizes]
  | cons a l ih =>
    have ha := h a (List.mem_cons_self _ _)
    have hl := ih (fun f hf => h f (List.mem_cons_of_mem _ hf))
    rw [sumSizes_cons]
    omega

theorem sumSizes_soft (l : List FileRec) (fid : FileId) (now : Nat) :
    sumSizes (l.map (fun g =>
      if g.id == fid then { g with is_deleted := true, deleted_at := some now } else g))
      = sumSizes l := by
  induction l with
  | nil => rfl
  | cons a l ih =>
    rw [List.map_cons, sumSizes_cons, sumSizes_cons, ih]
    by_cases h : (a.id == fid) = true
    · rw [if_pos h]
    · rw [if_neg h]

theorem sumSizes_remove (l : List FileRec) (f : FileRec) (fid : FileId)
    (hmem : f ∈ l) (hid : f.id = fid)
    (hnd : (l.map (fun g => g.id)).Nodup) :
    sumSizes (l.filter (fun g => !(g.id == fid))) = sumSizes l - f.file_size := by
  induction l with
  | nil => simp at hmem
  | cons a l ih =>
    rw [List.map_cons, List.nodup_cons] at hnd
    rcases List.mem_cons.mp hmem with rfl | hmem'
    · rw [List.filter_cons, if_neg (by simp [hid])]
      have hkeep : l.filter (fun g => !(g.id == fid)) = l := by
        apply List.filter_eq_self.mpr
        intro g hg
        have hne : ¬ g.id = f.id := by
          intro he
          exact hnd.1 (he ▸ List.mem_map_of_mem (fun g => g.id) hg)
        simp [hid ▸ hne]
      rw [hkeep, sumSizes_cons]
      omega
    · have hane : ¬ a.id = fid := by
        intro he
        have : f.id ∈ l.map (fun g => g.id) := List.mem_map_of_mem (fun g => g.id) hmem'
        rw [hid] at this
        exact hnd.1 (he ▸ this)
      rw [List.filter_cons, if_pos (by simp [hane])]
      rw [sumSizes_cons, sumSizes_cons, ih hmem' hnd.2]
      omega

/-- The inductive invariant tying a user's `storage_used` to the catalog:
the user row exists and its counter equals the sum of the sizes of all
rows still present (soft-deleted ones included); every present row
belongs to that user and has a positive size (sizes are validated at
upload); and row ids are unique (the catalog's primary key). -/
def quotaInv (uid : UserId) (st : DBState) : Prop :=
  (∃ u, lookupUser st uid = some u ∧ u.storage_used = sumSizes st.files) ∧
  (∀ f ∈ st.files, f.user_id = uid ∧ 0 < f.file_size) ∧
  (st.files.map (fun f => f.id)).Nodup

theorem quotaInv_upload (uid : UserId) (st : DBState) (fid : FileId) (fn md : String)
    (sz : Int) (cl : Nat) (now : Nat) (q p i : Bool)
    (h : quotaInv uid st) :
    quotaInv uid (upload_file st uid fn md sz cl fid now q p i true true true).state := by
  obtain ⟨⟨u, hu, hsum⟩, hown, hnd⟩ := h
  have hsum0 : 0 ≤ sumSizes st.files :=
    sumSizes_nonneg _ (fun f hf => (hown f hf).2)
  cases hv : validate_file_size sz max_file_size_bytes with
  | false =>
    unfold upload_file
    rw [hv]
    simp only [Bool.not_false, if_true]
    exact ⟨⟨u, hu, hsum⟩, hown, hnd⟩
  | true =>
    have hszpos : 0 < sz := by
      have h' := hv
      simp only [validate_file_size, Bool.and_eq_true, decide_eq_true_eq] at h'
      exact h'.1
    unfold upload_file
    rw [hv]
    simp only [Bool.not_true, Bool.false_eq_true, if_false]
    cases hchk : check_storage_quota st uid sz q with
    | false =>
      simp only [Bool.not_false, if_true]
      exact ⟨⟨u, hu, hsum⟩, hown, hnd⟩
    | true =>
      obtain ⟨hqOk, u₂, hu₂, hle⟩ := check_quota_true_inv st uid sz q hchk
      rw [hu] at hu₂
      cases hu₂
      simp only [Bool.not_true, Bool.false_eq_true, if_false]
      cases hvf : validate_file_upload cl max_file_size_bytes with
      | error e => exact ⟨⟨u, hu, hsum⟩, hown, hnd⟩
      | ok _ =>
        simp only
        cases p with
        | false =>
          simp only [Bool.not_false, if_true]
          exact ⟨⟨u, hu, hsum⟩, hown, hnd⟩
        | true =>
          simp only [Bool.not_true, Bool.false_eq_true, if_false, storagePut]
          cases hins : (!i || st.files.any (fun f => f.id == fid)) with
          | true =>
            simp only [if_true]
            exact ⟨⟨u, hu, hsum⟩, hown, hnd⟩
          | false =>
            simp only [Bool.false_eq_true, if_false, Bool.not_true]
            have hfresh : ∀ f ∈ st.files, ¬ f.id = fid := by
              have h' : st.files.any (fun f => f.id == fid) = false := by
                cases hi : st.files.any (fun f => f.id == fid)
                · rfl
                · rw [hi] at hins; simp at hins
              intro f hf
              have := List.any_eq_false.mp h' f hf
              simpa using this
            rw [update_storage_used_eq_ok (u := u)]
            · refine ⟨⟨_, lookupUser_setUser _ uid u _ hu, ?_⟩, ?_, ?_⟩
              · dsimp only [setUser]
                rw [max_eq_right (by omega), sumSizes_append, hsum, sumSizes_cons,
                  sumSizes_nil]
                dsimp only
                omega
              · dsimp only [setUser]
                intro f hf
                rcases List.mem_append.mp hf with hf' | hf'
                · exact hown f hf'
                · have : f = _ := List.mem_singleton.mp hf'
                  subst this
                  exact ⟨rfl, hszpos⟩
              · dsimp only [setUser]
                rw [List.map_append, List.nodup_append]
                refine ⟨hnd, by simp, ?_⟩
                intro a ha hb
                simp only [List.map_cons, List.map_nil, List.mem_singleton] at hb
                subst hb
                rcases List.mem_map.mp ha with ⟨g, hg, hgid⟩
                exact hfresh g hg hgid
            · exact hu
            · rintro ⟨_, h2⟩
              rw [max_eq_right (by omega)] at h2
              omega

theorem quotaInv_delete (uid : UserId) (st : DBState) (fid : FileId)
    (perm : Bool) (now : Nat)
    (h : quotaInv uid st) :
    quotaInv uid (delete_file st uid fid perm now).state := by
  obtain ⟨⟨u, hu, hsum⟩, hown, hnd⟩ := h
  cases hvalid : validate_uuid fid with
  | false =>
    unfold delete_file
    rw [hvalid]
    simp only [Bool.not_false, if_true]
    exact ⟨⟨u, hu, hsum⟩, hown, hnd⟩
  | true =>
    unfold delete_file
    rw [hvalid]
    simp only [Bool.not_true, Bool.false_eq_true, if_false]
    cases hfind : st.files.find? (fun f => f.id == fid && f.user_id == uid) with
    | none => exact ⟨⟨u, hu, hsum⟩, hown, hnd⟩
    | some f =>
      have hmem : f ∈ st.files := List.mem_of_find?_eq_some hfind
      have hpf := List.find?_some hfind
      have hid : f.id = fid := by
        simp only [Bool.and_eq_true, beq_iff_eq] at hpf
        exact hpf.1
      have hpos : 0 < f.file_size := (hown f hmem).2
      cases hperm : (perm || f.is_deleted) with
      | false =>
        simp only [hperm, Bool.false_eq_true, if_false]
        refine ⟨⟨u, hu, ?_⟩, ?_, ?_⟩
        · dsimp only
          rw [sumSizes_soft]
          exact hsum
        · intro g' hg'
          rcases List.mem_map.mp hg' with ⟨g, hg, rfl⟩
          by_cases hgid : (g.id == fid) = true
          · rw [if_pos hgid]
            exact hown g hg
          · rw [if_neg hgid]
            exact hown g hg
        · have hids : (st.files.map (fun g =>
              if g.id == fid then { g with is_deleted := true, deleted_at := some now }
              else g)).map (fun g => g.id) = st.files.map (fun g => g.id) := by
            rw [List.map_map]
            apply List.map_congr_left
            intro g _
            by_cases hgid : (g.id == fid) = true
            · simp only [Function.comp_apply, if_pos hgid]
            · simp only [Function.comp_apply, if_neg hgid]
          rw [hids]
          exact hnd
      | true =>
        simp only [hperm, if_true]
        rw [update_storage_used_eq_ok (u := u)]
        · have hrem := sumSizes_remove st.files f fid hmem hid hnd
          have hne : 0 ≤ sumSizes (st.files.filter (fun g => !(g.id == fid))) :=
            sumSizes_nonneg _ (fun g hg => (hown g (List.mem_filter.mp hg).1).2)
          refine ⟨⟨_, lookupUser_setUser _ uid u _ hu, ?_⟩, ?_, ?_⟩
          · dsimp only [setUser, storageDelete]
            rw [max_eq_right (by omega), hrem]
            omega
          · dsimp only [setUser, storageDelete]
            intro g hg
            exact hown g (List.mem_filter.mp hg).1
          · dsimp only [setUser, storageDelete]
            exact hnd.sublist ((List.filter_sublist _).map _)
        · exact hu
        · rintro ⟨h1, _⟩
          omega

theorem quotaInv_runOps (uid : UserId) (st : DBState) (ops : List Op)
    (h : quotaInv uid st) : quotaInv uid (runOps uid st ops) := by
  induction ops generalizing st with
  | nil => exact h
  | cons op ops ih =>
    cases op with
    | upload fid fn fm sz cl now q p i =>
      exact ih _ (quotaInv_upload uid st fid fn fm sz cl now q p i h)
    | delete fid perm now =>
      exact ih _ (quotaInv_delete uid st fid perm now h)

/-- C2: starting from a fresh account (`storage_used = 0`, no catalog
rows), after any sequence of upload / soft-delete / hard-delete
operations issued by that user — each either completing or raising —
`storage_used` equals the sum of `file_size` over all catalog rows that
have not been hard-deleted; soft-deleted rows still count. -/
theorem C2_storage_used_eq_sum (uid : UserId) (limit : Int) (ops : List Op) :
    ∃ u, lookupUser (runOps uid (freshState uid limit) ops) uid = some u ∧
      u.storage_used = sumSizes (runOps uid (freshState uid limit) ops).files := by
  have h0 : quotaInv uid (freshState uid limit) := by
    refine ⟨⟨{ storage_used := 0, storage_limit := limit, is_active := true },
      ?_, rfl⟩, ?_, ?_⟩
    · simp [lookupUser, freshState]
    · intro f hf
      simp [freshState] at hf
    · simp [freshState]
  exact (quotaInv_runOps uid _ ops h0).1

end EncFiles
